import Mathlib

/-!
# Verification of the sdl-helpers transform-stack core

Shallow embedding of the transform-stack subsystem of the `sdl-helpers`
repository (`src/lib.rs`, `src/matrix_stack.rs`).

Modelling conventions:
* `f64` scalars are idealised as real numbers (`ℝ`); the 3×3 `f64` matrix
  `nalgebra::Matrix3<f64>` becomes the nine-field structure `Mat3`.
* The global `MATRIX_STACK : RwLock<Vec<Matrix3<f64>>>` becomes a
  `List Mat3`.  A Rust `Vec` grows at the end and `last()` is the top of
  the stack; we keep the top at the *head* of the list, so `Vec::push`
  is list cons, `Vec::pop` is `List.tail`, and `Vec::last` is `List.head?`.
* A Rust panic (`Option::unwrap` on `None`) is modelled by `Option`:
  an operation that panics returns `none`.
* The SDL rendering surface is modelled by a response function
  `resp : AdapterCall → Except String Unit` giving the adapter's verdict
  for each call; draw operations also return the list of adapter calls
  they issued, in order.
-/

namespace SdlHelpers

/-- A 3×3 matrix of real scalars, the embedding of `nalgebra::Matrix3<f64>`.
Field `mIJ` is the entry in row `I`, column `J`. -/
structure Mat3 where
  m00 : ℝ
  m01 : ℝ
  m02 : ℝ
  m10 : ℝ
  m11 : ℝ
  m12 : ℝ
  m20 : ℝ
  m21 : ℝ
  m22 : ℝ

/-- `nalgebra::Matrix3::identity()`. -/
def Mat3.identity : Mat3 :=
  ⟨1, 0, 0,
   0, 1, 0,
   0, 0, 1⟩

/-- Row-by-column 3×3 matrix product, the embedding of `nalgebra`'s
`Matrix3 * Matrix3` (and of `Matrix3 *= …`, which assigns the product
back to the left operand). -/
def Mat3.mul (A B : Mat3) : Mat3 :=
  ⟨A.m00 * B.m00 + A.m01 * B.m10 + A.m02 * B.m20,
   A.m00 * B.m01 + A.m01 * B.m11 + A.m02 * B.m21,
   A.m00 * B.m02 + A.m01 * B.m12 + A.m02 * B.m22,
   A.m10 * B.m00 + A.m11 * B.m10 + A.m12 * B.m20,
   A.m10 * B.m01 + A.m11 * B.m11 + A.m12 * B.m21,
   A.m10 * B.m02 + A.m11 * B.m12 + A.m12 * B.m22,
   A.m20 * B.m00 + A.m21 * B.m10 + A.m22 * B.m20,
   A.m20 * B.m01 + A.m21 * B.m11 + A.m22 * B.m21,
   A.m20 * B.m02 + A.m21 * B.m12 + A.m22 * B.m22⟩

instance : Mul Mat3 := ⟨Mat3.mul⟩

/-- `nalgebra::geometry::Translation2::new(dx, dy).to_homogeneous()`:
the homogeneous 3×3 matrix of a 2-D translation by `(dx, dy)`. -/
def translationHom (dx dy : ℝ) : Mat3 :=
  ⟨1, 0, dx,
   0, 1, dy,
   0, 0, 1⟩

/-- `nalgebra::geometry::Rotation::from_axis_angle(&Vector3::z_axis(), θ)`:
the matrix of a rotation by `θ` radians about the z-axis
(counter-clockwise for positive `θ`), which is exactly the homogeneous
2-D rotation matrix. -/
noncomputable def rotationHom (θ : ℝ) : Mat3 :=
  ⟨Real.cos θ, -Real.sin θ, 0,
   Real.sin θ,  Real.cos θ, 0,
   0, 0, 1⟩

/-- `nalgebra`'s `Matrix3::transform_point` on a 2-D point: multiply the
homogeneous column `(x, y, 1)` by the matrix and dehomogenise (divide by
the resulting homogeneous coordinate). -/
noncomputable def transformPoint (m : Mat3) (p : ℝ × ℝ) : ℝ × ℝ :=
  let x := m.m00 * p.1 + m.m01 * p.2 + m.m02
  let y := m.m10 * p.1 + m.m11 * p.2 + m.m12
  let w := m.m20 * p.1 + m.m21 * p.2 + m.m22
  (x / w, y / w)

/-- Rust's saturating cast `as i16` from `f64` (truncate toward zero,
saturating at the `i16` bounds), idealised on `ℝ`. -/
noncomputable def f64ToI16 (x : ℝ) : ℤ :=
  max (-32768) (min 32767 (if 0 ≤ x then ⌊x⌋ else ⌈x⌉))

/-- `sdl2::pixels::Color` (RGBA bytes); the core only passes it through. -/
structure Color where
  r : Nat
  g : Nat
  b : Nat
  a : Nat

/-- The constructors of `SdlError` used by the modelled operations
(draw failures are wrapped by `SdlError::Draw`). -/
inductive SdlError where
  | Init (msg : String)
  | InitVideo (msg : String)
  | EventPump (msg : String)
  | Draw (msg : String)

/-- One call forwarded to the underlying SDL adapter (canvas/renderer). -/
inductive AdapterCall where
  | setDrawColor (c : Color)
  | clear
  | line (x1 y1 x2 y2 : ℤ) (c : Color)
  | filledCircle (x y rad : ℤ) (c : Color)

/-! ## The transform stack and its mutations (`matrix_stack.rs`, `lib.rs`) -/

/-- `MATRIX_STACK`'s initial value: `vec![Matrix3::identity()]`. -/
def initialStack : List Mat3 := [Mat3.identity]

/-- `reset_matrix`: `MATRIX_STACK.write().clear();
MATRIX_STACK.write().push(identity)` — afterwards the stack holds exactly
one identity matrix, whatever it held before. -/
def reset_matrix (_s : List Mat3) : List Mat3 := [Mat3.identity]

/-- `translate(dx, dy)`: `*MATRIX_STACK.write().last_mut().unwrap() *=
Translation2::new(dx, dy).to_homogeneous()`.  On an empty stack the
`unwrap` panics (`none`); otherwise the top is right-multiplied by the
translation matrix. -/
def translate (dx dy : ℝ) : List Mat3 → Option (List Mat3)
  | [] => none
  | top :: rest => some ((top * translationHom dx dy) :: rest)

/-- `rotate(radians)`: `*MATRIX_STACK.write().last_mut().unwrap() *=
Rotation::from_axis_angle(&Vector3::z_axis(), radians)`.  On an empty
stack the `unwrap` panics (`none`); otherwise the top is right-multiplied
by the rotation matrix. -/
noncomputable def rotate (θ : ℝ) : List Mat3 → Option (List Mat3)
  | [] => none
  | top :: rest => some ((top * rotationHom θ) :: rest)

/-- `push_matrix`: `let top = MATRIX_STACK.read().last().unwrap().clone();
MATRIX_STACK.write().push(top)`.  On an empty stack the `unwrap` panics
(`none`); otherwise the top is duplicated. -/
def push_matrix : List Mat3 → Option (List Mat3)
  | [] => none
  | top :: rest => some (top :: top :: rest)

/-- `pop_matrix`: `MATRIX_STACK.write().pop();` — the `Option` returned by
`Vec::pop` is discarded, so this never panics; on an empty stack it is a
no-op, and on a singleton stack it leaves the stack empty. -/
def pop_matrix (s : List Mat3) : List Mat3 := s.tail

/-- One mutation of the transform stack, as named by the spec. -/
inductive Op where
  | reset
  | push
  | pop
  | translate (dx dy : ℝ)
  | rotate (θ : ℝ)

/-- Execute one mutation on a stack state; `none` models a panic. -/
noncomputable def step (s : List Mat3) : Op → Option (List Mat3)
  | Op.reset => some (reset_matrix s)
  | Op.push => push_matrix s
  | Op.pop => some (pop_matrix s)
  | Op.translate dx dy => translate dx dy s
  | Op.rotate θ => rotate θ s

/-- Execute a sequence of mutations left to right; `none` models a panic
somewhere along the way. -/
noncomputable def run (s : List Mat3) : List Op → Option (List Mat3)
  | [] => some s
  | op :: ops => (step s op).bind fun s2 => run s2 ops

/-! ## The draw layer (`lib.rs`, `CanvasExt`) -/

/-- `background(color)`: `set_draw_color(color); clear()`.  It never
touches `MATRIX_STACK`; the stack component of the result records that.
The second component is the list of adapter calls issued. -/
def background (s : List Mat3) (color : Color) :
    List Mat3 × List AdapterCall :=
  (s, [AdapterCall.setDrawColor color, AdapterCall.clear])

/-- The single `self.line(...)` call issued by `ext_draw_line` for top
matrix `top`: both endpoints are transformed through `top` and narrowed
to `i16` before being forwarded, together with the colour. -/
noncomputable def lineCall (top : Mat3) (start fin : ℝ × ℝ) (color : Color) :
    AdapterCall :=
  AdapterCall.line
    (f64ToI16 (transformPoint top start).1) (f64ToI16 (transformPoint top start).2)
    (f64ToI16 (transformPoint top fin).1) (f64ToI16 (transformPoint top fin).2)
    color

/-- The single `self.filled_circle(...)` call issued by `ext_fill_circle`:
the centre is transformed through `top` and narrowed to `i16`; the radius
is narrowed but *not* scaled by the transform. -/
noncomputable def circleCall (top : Mat3) (center : ℝ × ℝ) (radius : ℝ)
    (color : Color) : AdapterCall :=
  AdapterCall.filledCircle
    (f64ToI16 (transformPoint top center).1) (f64ToI16 (transformPoint top center).2)
    (f64ToI16 radius) color

/-- `ext_draw_line`: reads the top of `MATRIX_STACK` (the two successive
`read()` calls see the same top in the absence of interleaving), panics
(`none`) if the stack is empty, transforms both endpoints, issues exactly
one `line` call to the adapter and wraps any adapter error in
`SdlError::Draw` via `map_err`.  The result carries the stack after the
call (never written), the adapter calls issued, and the returned
`Result`. -/
noncomputable def ext_draw_line (resp : AdapterCall → Except String Unit)
    (s : List Mat3) (start fin : ℝ × ℝ) (color : Color) :
    Option (List Mat3 × List AdapterCall × Except SdlError Unit) :=
  match s with
  | [] => none
  | top :: rest =>
    some (top :: rest, [lineCall top start fin color],
      (resp (lineCall top start fin color)).mapError SdlError.Draw)

/-- `ext_fill_circle`: like `ext_draw_line` but with one `filled_circle`
adapter call. -/
noncomputable def ext_fill_circle (resp : AdapterCall → Except String Unit)
    (s : List Mat3) (center : ℝ × ℝ) (radius : ℝ) (color : Color) :
    Option (List Mat3 × List AdapterCall × Except SdlError Unit) :=
  match s with
  | [] => none
  | top :: rest =>
    some (top :: rest, [circleCall top center radius color],
      (resp (circleCall top center radius color)).mapError SdlError.Draw)

/-! ## Lock-granular decomposition of `reset_matrix` and `push_matrix`

`reset_matrix` is two statements, each acquiring and releasing the write
lock on its own: `MATRIX_STACK.write().clear();` then
`MATRIX_STACK.write().push(Matrix3::identity());`.  `push_matrix` first
acquires the *read* lock to clone the top, releases it, then acquires the
write lock to push the clone.  Each definition below is one
lock-acquisition-sized atomic step, so interleavings of concurrent
callers are sequences of these steps. -/

/-- First statement of `reset_matrix`: `MATRIX_STACK.write().clear()`. -/
def resetClearStep (_s : List Mat3) : List Mat3 := []

/-- Second statement of `reset_matrix`:
`MATRIX_STACK.write().push(Matrix3::identity())`. -/
def resetPushIdentityStep (s : List Mat3) : List Mat3 := Mat3.identity :: s

/-- First statement of `push_matrix`:
`MATRIX_STACK.read().last().unwrap().clone()` — reads the top under the
read lock; the `unwrap` panics (`none`) on an empty stack. -/
def pushReadStep (s : List Mat3) : Option Mat3 := s.head?

/-- Second statement of `push_matrix`: `MATRIX_STACK.write().push(top)`
with the previously read value `top`. -/
def pushWriteStep (top : Mat3) (s : List Mat3) : List Mat3 := top :: s

/-- The draw layer's read of the current top,
`MATRIX_STACK.read().last().unwrap()` — one read-lock acquisition; the
`unwrap` panics (`none`) on an empty stack. -/
def topRead (s : List Mat3) : Option Mat3 := s.head?

/-! ## Helper notions and lemmas -/

/-- Unfolding lemma for the `Mul Mat3` instance. -/
theorem Mat3.mul_def (A B : Mat3) : A * B = Mat3.mul A B := rfl

/-- A matrix is a valid affine map when its bottom row is `[0, 0, 1]`. -/
def isAffine (m : Mat3) : Prop := m.m20 = 0 ∧ m.m21 = 0 ∧ m.m22 = 1

/-- Every matrix stored in the stack is a valid affine map. -/
def stackAffine (s : List Mat3) : Prop := ∀ m ∈ s, isAffine m

theorem isAffine_identity : isAffine Mat3.identity := ⟨rfl, rfl, rfl⟩

theorem isAffine_translationHom (dx dy : ℝ) : isAffine (translationHom dx dy) :=
  ⟨rfl, rfl, rfl⟩

theorem isAffine_rotationHom (θ : ℝ) : isAffine (rotationHom θ) := ⟨rfl, rfl, rfl⟩

theorem isAffine_mul {A B : Mat3} (hA : isAffine A) (hB : isAffine B) :
    isAffine (A * B) := by
  obtain ⟨hA0, hA1, hA2⟩ := hA
  obtain ⟨hB0, hB1, hB2⟩ := hB
  refine ⟨?_, ?_, ?_⟩ <;>
    simp [Mat3.mul_def, Mat3.mul, hA0, hA1, hA2, hB0, hB1, hB2]

theorem stackAffine_initial : stackAffine initialStack := by
  intro m hm
  rw [initialStack, List.mem_singleton] at hm
  rw [hm]
  exact isAffine_identity

theorem stackAffine_step {s s2 : List Mat3} {op : Op}
    (h : stackAffine s) (hstep : step s op = some s2) : stackAffine s2 := by
  cases op with
  | reset =>
    rw [step] at hstep
    injection hstep with hs2
    rw [← hs2]
    intro m hm
    rw [reset_matrix, List.mem_singleton] at hm
    rw [hm]
    exact isAffine_identity
  | push =>
    cases s with
    | nil => exact absurd hstep (by rw [step, push_matrix]; exact fun h => by cases h)
    | cons t r =>
      rw [step, push_matrix] at hstep
      injection hstep with hs2
      rw [← hs2]
      intro m hm
      rcases List.mem_cons.mp hm with hm | hm
      · rw [hm]; exact h t (List.mem_cons_self t r)
      · exact h m hm
  | pop =>
    rw [step, pop_matrix] at hstep
    injection hstep with hs2
    rw [← hs2]
    intro m hm
    exact h m (List.mem_of_mem_tail hm)
  | translate dx dy =>
    cases s with
    | nil => exact absurd hstep (by rw [step, translate]; exact fun h => by cases h)
    | cons t r =>
      rw [step, translate] at hstep
      injection hstep with hs2
      rw [← hs2]
      intro m hm
      rcases List.mem_cons.mp hm with hm | hm
      · rw [hm]
        exact isAffine_mul (h t (List.mem_cons_self t r)) (isAffine_translationHom dx dy)
      · exact h m (List.mem_cons_of_mem t hm)
  | rotate θ =>
    cases s with
    | nil => exact absurd hstep (by rw [step, rotate]; exact fun h => by cases h)
    | cons t r =>
      rw [step, rotate] at hstep
      injection hstep with hs2
      rw [← hs2]
      intro m hm
      rcases List.mem_cons.mp hm with hm | hm
      · rw [hm]
        exact isAffine_mul (h t (List.mem_cons_self t r)) (isAffine_rotationHom θ)
      · exact h m (List.mem_cons_of_mem t hm)

theorem stackAffine_run {M : List Op} {s s2 : List Mat3}
    (h : stackAffine s) (hrun : run s M = some s2) : stackAffine s2 := by
  induction M generalizing s with
  | nil =>
    rw [run] at hrun
    injection hrun with hs2
    rw [← hs2]
    exact h
  | cons op M ih =>
    rw [run] at hrun
    obtain ⟨s1, hs1, hrest⟩ := Option.bind_eq_some.mp hrun
    exact ih (stackAffine_step h hs1) hrest

/-! ## Claims -/

/-- C1: the claim (from the spec's non-empty-stack invariant) says that no
sequence of excess `pop()` calls ever empties the stack and that reading
the top never fails; the code violates it: a single `pop_matrix` from the
initial singleton stack leaves the stack empty, and the next top-reading
mutation panics instead of raising `StackUnderflow`.  This theorem
evaluates the code at that failing input. -/
theorem C1_pop_empties_stack_eval :
    run initialStack [Op.pop] = some [] ∧
    run initialStack [Op.pop, Op.translate 1 0] = none :=
  ⟨rfl, rfl⟩

/-- C4: `reset_matrix` leaves the stack holding exactly one identity
transform regardless of all prior history, and after
`push(); translate(5,5); reset()` the stack is exactly `[identity]`, so
its top is the identity matrix. -/
theorem C4_reset_clears_history :
    (∀ s : List Mat3, reset_matrix s = [Mat3.identity]) ∧
    run initialStack [Op.push, Op.translate 5 5, Op.reset] = some [Mat3.identity] :=
  ⟨fun _ => rfl, rfl⟩

/-- C5: every state reachable from the initial stack by reset, push, pop,
translate and rotate contains only valid affine maps (bottom row
`[0,0,1]`). -/
theorem C5_reachable_stacks_affine (M : List Op) (s : List Mat3)
    (h : run initialStack M = some s) : stackAffine s :=
  stackAffine_run stackAffine_initial h

/-- Witness for C5 at the concrete mutation sequence `[translate 1 2]`. -/
theorem C5_witness :
    run initialStack [Op.translate 1 2] = some [Mat3.identity * translationHom 1 2] ∧
    stackAffine [Mat3.identity * translationHom 1 2] :=
  ⟨rfl, C5_reachable_stacks_affine [Op.translate 1 2] _ rfl⟩

/-- C8 counterexample: the claim says `pop()` on a single-element stack
causes a process-fatal panic; in the code `pop_matrix` discards the
`Option` returned by `Vec::pop`, so popping the initial singleton stack
completes normally (`some`, not the `none` that models a panic) and
silently leaves the stack empty. -/
theorem C8_counterexample_pop_no_panic :
    run initialStack [Op.pop] = some [] ∧ run initialStack [Op.pop] ≠ none :=
  ⟨rfl, Option.some_ne_none _⟩

/-- C8 (amended): `pop_matrix` never panics — on a singleton stack it
silently empties the stack and on an empty stack it is a no-op — while
`translate`, `rotate`, `push_matrix` and both draw calls panic via
option-typed `unwrap` (modelled by `none`) when the stack is empty,
rather than returning an error value. -/
theorem C8_empty_stack_access_panics (dx dy θ radius : ℝ) (p q cen : ℝ × ℝ)
    (c : Color) (resp : AdapterCall → Except String Unit) :
    pop_matrix initialStack = [] ∧
    pop_matrix [] = [] ∧
    translate dx dy [] = none ∧
    rotate θ [] = none ∧
    push_matrix [] = none ∧
    ext_draw_line resp [] p q c = none ∧
    ext_fill_circle resp [] cen radius c = none :=
  ⟨rfl, rfl, rfl, rfl, rfl, rfl, rfl⟩

/-- C9 counterexample: the claim says a concurrent reader never observes
an empty stack in the middle of a `reset`; but `reset_matrix` is two
separate write-lock acquisitions (`clear`, then `push(identity)`), and in
the state between them — after `resetClearStep` — the stack is empty, so
a top-read scheduled there finds no element (`none`, i.e. the reader's
`unwrap` panics). -/
theorem C9_counterexample_reader_mid_reset :
    resetClearStep initialStack = [] ∧
    topRead (resetClearStep initialStack) = none :=
  ⟨rfl, rfl⟩

/-- C9 (amended): each single lock acquisition is atomic, but `reset` and
`push` are each two separate acquisitions: `reset`'s two write steps
compose sequentially to `reset_matrix`, yet between them the stack is
empty and a concurrent top-read fails; `push`'s read step followed by its
write step composes sequentially to `push_matrix`, with the lock released
between the read of the old top and the append of the duplicate. -/
theorem C9_lock_granular_reset_push (s : List Mat3) (top : Mat3) (rest : List Mat3) :
    resetPushIdentityStep (resetClearStep s) = reset_matrix s ∧
    topRead (resetClearStep s) = none ∧
    pushReadStep (top :: rest) = some top ∧
    push_matrix (top :: rest) = some (pushWriteStep top (top :: rest)) :=
  ⟨rfl, rfl, rfl, rfl⟩

/-- C10: the drawing operations `background`, `ext_draw_line` and
`ext_fill_circle` never modify the transform stack: whenever a draw call
completes (successfully or with an error), the stack it returns is the
stack it was given. -/
theorem C10_draw_preserves_stack (resp : AdapterCall → Except String Unit)
    (s : List Mat3) (c : Color) (p q cen : ℝ × ℝ) (radius : ℝ) :
    (background s c).1 = s ∧
    (∀ s2 calls res, ext_draw_line resp s p q c = some (s2, calls, res) → s2 = s) ∧
    (∀ s2 calls res, ext_fill_circle resp s cen radius c = some (s2, calls, res) → s2 = s) := by
  refine ⟨rfl, ?_, ?_⟩
  · intro s2 calls res h
    cases s with
    | nil => exact absurd h (by rw [ext_draw_line]; exact fun h => by cases h)
    | cons t r =>
      rw [ext_draw_line] at h
      injection h with h
      exact (congrArg Prod.fst h).symm
  · intro s2 calls res h
    cases s with
    | nil => exact absurd h (by rw [ext_fill_circle]; exact fun h => by cases h)
    | cons t r =>
      rw [ext_fill_circle] at h
      injection h with h
      exact (congrArg Prod.fst h).symm

/-- Witness for C10 at a concrete successful line draw on the initial
singleton stack. -/
theorem C10_witness :
    ext_draw_line (fun _ => Except.ok ()) [Mat3.identity] (0, 0) (1, 0) ⟨0, 0, 0, 255⟩
      = some ([Mat3.identity],
          [lineCall Mat3.identity (0, 0) (1, 0) ⟨0, 0, 0, 255⟩], Except.ok ()) ∧
    ([Mat3.identity] : List Mat3) = [Mat3.identity] :=
  ⟨rfl,
    (C10_draw_preserves_stack (fun _ => Except.ok ()) [Mat3.identity] ⟨0, 0, 0, 255⟩
        (0, 0) (1, 0) (0, 0) 0).2.1 _ _ _ rfl⟩

/-- C3: `translate` and `rotate` compose their elementary matrix on the
right of the current top (`top := top * elementary`), so each acts in the
current local frame; concretely, starting from the identity,
`translate(10,0)` then `rotate(π/2)` yields a top matrix that maps the
point `(1,0)` to `(10,1)` up to the claimed `1e-9` tolerance. -/
theorem C3_local_frame_composition :
    (∀ (dx dy : ℝ) (top : Mat3) (rest : List Mat3),
        translate dx dy (top :: rest) = some ((top * translationHom dx dy) :: rest)) ∧
    (∀ (θ : ℝ) (top : Mat3) (rest : List Mat3),
        rotate θ (top :: rest) = some ((top * rotationHom θ) :: rest)) ∧
    (run initialStack [Op.translate 10 0, Op.rotate (Real.pi / 2)]
        = some [Mat3.identity * translationHom 10 0 * rotationHom (Real.pi / 2)] ∧
      |(transformPoint (Mat3.identity * translationHom 10 0 * rotationHom (Real.pi / 2))
          (1, 0)).1 - 10| ≤ 1e-9 ∧
      |(transformPoint (Mat3.identity * translationHom 10 0 * rotationHom (Real.pi / 2))
          (1, 0)).2 - 1| ≤ 1e-9) := by
  refine ⟨fun _ _ _ _ => rfl, fun _ _ _ => rfl, rfl, ?_, ?_⟩ <;>
  · simp [transformPoint, Mat3.mul_def, Mat3.mul, Mat3.identity, translationHom, rotationHom,
      Real.cos_pi_div_two, Real.sin_pi_div_two]
    norm_num

/-- C6: after `reset()` and `translate(100,50)`, drawing a line from
user-space `(0,0)` to `(10,0)` forwards the device-space integer
coordinates `(100,50)` and `(110,50)`, together with the given colour, to
the adapter's `line` call. -/
theorem C6_end_to_end_line (resp : AdapterCall → Except String Unit) (c : Color) :
    ∃ res, (run initialStack [Op.reset, Op.translate 100 50]).bind
        (fun s => ext_draw_line resp s (0, 0) (10, 0) c)
      = some ([Mat3.identity * translationHom 100 50],
          [AdapterCall.line 100 50 110 50 c], res) := by
  have hcall : lineCall (Mat3.identity * translationHom 100 50) (0, 0) (10, 0) c
      = AdapterCall.line 100 50 110 50 c := by
    have hp : transformPoint (Mat3.identity * translationHom 100 50) (0, 0)
        = ((100 : ℝ), (50 : ℝ)) := by
      norm_num [transformPoint, Mat3.mul_def, Mat3.mul, Mat3.identity, translationHom]
    have hq : transformPoint (Mat3.identity * translationHom 100 50) (10, 0)
        = ((110 : ℝ), (50 : ℝ)) := by
      norm_num [transformPoint, Mat3.mul_def, Mat3.mul, Mat3.identity, translationHom]
    rw [lineCall, hp, hq]
    norm_num [f64ToI16]
  refine ⟨(resp (AdapterCall.line 100 50 110 50 c)).mapError SdlError.Draw, ?_⟩
  show ext_draw_line resp [Mat3.identity * translationHom 100 50] (0, 0) (10, 0) c = _
  rw [ext_draw_line, hcall]

/-- C7: `ext_draw_line` and `ext_fill_circle` issue exactly one adapter
call each (never retried) and return an error exactly when the adapter
rejects that call, propagating the adapter's failure wrapped as
`SdlError.Draw` without modification; when the adapter accepts, they
return success. -/
theorem C7_draw_error_propagation (resp : AdapterCall → Except String Unit)
    (top : Mat3) (rest : List Mat3) (p q cen : ℝ × ℝ) (radius : ℝ) (c : Color) :
    ((∀ e, resp (lineCall top p q c) = Except.error e →
        ext_draw_line resp (top :: rest) p q c
          = some (top :: rest, [lineCall top p q c],
              Except.error (SdlError.Draw e))) ∧
      (resp (lineCall top p q c) = Except.ok () →
        ext_draw_line resp (top :: rest) p q c
          = some (top :: rest, [lineCall top p q c], Except.ok ()))) ∧
    ((∀ e, resp (circleCall top cen radius c) = Except.error e →
        ext_fill_circle resp (top :: rest) cen radius c
          = some (top :: rest, [circleCall top cen radius c],
              Except.error (SdlError.Draw e))) ∧
      (resp (circleCall top cen radius c) = Except.ok () →
        ext_fill_circle resp (top :: rest) cen radius c
          = some (top :: rest, [circleCall top cen radius c], Except.ok ()))) := by
  refine ⟨⟨?_, ?_⟩, ?_, ?_⟩
  · intro e he
    rw [ext_draw_line, he]
    rfl
  · intro hok
    rw [ext_draw_line, hok]
    rfl
  · intro e he
    rw [ext_fill_circle, he]
    rfl
  · intro hok
    rw [ext_fill_circle, hok]
    rfl

/-- Witness for C7: a rejecting adapter's message is propagated wrapped
in `SdlError.Draw` for a concrete line draw. -/
theorem C7_witness :
    (fun _ : AdapterCall => (Except.error "surface gone" : Except String Unit))
        (lineCall Mat3.identity (0, 0) (1, 1) ⟨0, 0, 0, 255⟩)
      = Except.error "surface gone" ∧
    ext_draw_line (fun _ => Except.error "surface gone") [Mat3.identity]
        (0, 0) (1, 1) ⟨0, 0, 0, 255⟩
      = some ([Mat3.identity], [lineCall Mat3.identity (0, 0) (1, 1) ⟨0, 0, 0, 255⟩],
          Except.error (SdlError.Draw "surface gone")) :=
  ⟨rfl,
    (C7_draw_error_propagation (fun _ => Except.error "surface gone") Mat3.identity []
        (0, 0) (1, 1) (0, 0) 0 ⟨0, 0, 0, 255⟩).1.1 "surface gone" rfl⟩

/-! ## Push/pop balance (for the push/pop symmetry claim) -/

/-- Number of `push` operations in a mutation sequence. -/
def pushes : List Op → Nat
  | [] => 0
  | Op.push :: M => pushes M + 1
  | Op.reset :: M => pushes M
  | Op.pop :: M => pushes M
  | Op.translate _ _ :: M => pushes M
  | Op.rotate _ :: M => pushes M

/-- Number of `pop` operations in a mutation sequence. -/
def pops : List Op → Nat
  | [] => 0
  | Op.pop :: M => pops M + 1
  | Op.reset :: M => pops M
  | Op.push :: M => pops M
  | Op.translate _ _ :: M => pops M
  | Op.rotate _ :: M => pops M

/-- A mutation sequence is balanced when no initial segment has more
pops than pushes and the totals agree. -/
def balanced (M : List Op) : Prop :=
  (∀ n, pops (M.take n) ≤ pushes (M.take n)) ∧ pops M = pushes M

theorem run_append (s : List Mat3) (L1 L2 : List Op) :
    run s (L1 ++ L2) = (run s L1).bind fun s2 => run s2 L2 := by
  induction L1 generalizing s with
  | nil => rfl
  | cons op L1 ih =>
    show (step s op).bind _ = ((step s op).bind _).bind _
    cases step s op with
    | none => rfl
    | some s2 => simpa using ih s2

/-- Frame lemma: a reset-free mutation sequence that never pops deeper
than the `u`-part of the stack leaves the `rest`-part untouched, and
changes the length of the `u`-part by `pushes - pops`. -/
theorem run_frame (M : List Op) (u rest : List Mat3)
    (hres : Op.reset ∉ M)
    (hdepth : ∀ n, pops (M.take n) + 1 ≤ pushes (M.take n) + u.length) :
    ∃ u2, run (u ++ rest) M = some (u2 ++ rest) ∧
      u2.length + pops M = u.length + pushes M := by
  induction M generalizing u with
  | nil => exact ⟨u, rfl, by rw [pops, pushes]⟩
  | cons op M ih =>
    have hu : 1 ≤ u.length := by
      have h0 := hdepth 0
      rw [List.take_zero, pops, pushes] at h0
      omega
    obtain ⟨t, u0, rfl⟩ : ∃ t u0, u = t :: u0 := by
      cases u with
      | nil => exact absurd hu (by simp)
      | cons t u0 => exact ⟨t, u0, rfl⟩
    have hres2 : Op.reset ∉ M := fun h => hres (List.mem_cons_of_mem _ h)
    cases op with
    | reset => exact absurd (List.mem_cons_self _ _) hres
    | push =>
      have hdepth2 : ∀ n,
          pops (M.take n) + 1 ≤ pushes (M.take n) + (t :: t :: u0).length := by
        intro n
        have h := hdepth (n + 1)
        rw [List.take_succ_cons, pops, pushes] at h
        simp only [List.length_cons] at h ⊢
        omega
      obtain ⟨u2, hrun, hlen⟩ := ih (t :: t :: u0) hres2 hdepth2
      refine ⟨u2, hrun, ?_⟩
      rw [pops, pushes]
      simp only [List.length_cons] at hlen ⊢
      omega
    | pop =>
      have hdepth2 : ∀ n,
          pops (M.take n) + 1 ≤ pushes (M.take n) + u0.length := by
        intro n
        have h := hdepth (n + 1)
        rw [List.take_succ_cons, pops, pushes] at h
        simp only [List.length_cons] at h
        omega
      obtain ⟨u2, hrun, hlen⟩ := ih u0 hres2 hdepth2
      refine ⟨u2, hrun, ?_⟩
      rw [pops, pushes]
      simp only [List.length_cons]
      omega
    | translate dx dy =>
      have hdepth2 : ∀ n,
          pops (M.take n) + 1
            ≤ pushes (M.take n) + ((t * translationHom dx dy) :: u0).length := by
        intro n
        have h := hdepth (n + 1)
        rw [List.take_succ_cons, pops, pushes] at h
        simpa using h
      obtain ⟨u2, hrun, hlen⟩ := ih ((t * translationHom dx dy) :: u0) hres2 hdepth2
      refine ⟨u2, hrun, ?_⟩
      rw [pops, pushes]
      simpa using hlen
    | rotate θ =>
      have hdepth2 : ∀ n,
          pops (M.take n) + 1
            ≤ pushes (M.take n) + ((t * rotationHom θ) :: u0).length := by
        intro n
        have h := hdepth (n + 1)
        rw [List.take_succ_cons, pops, pushes] at h
        simpa using h
      obtain ⟨u2, hrun, hlen⟩ := ih ((t * rotationHom θ) :: u0) hres2 hdepth2
      refine ⟨u2, hrun, ?_⟩
      rw [pops, pushes]
      simpa using hlen

/-- C2 counterexample: the claim quantifies over mutation sequences `M`
that may contain `reset`; with `M = [reset]` (trivially balanced in its
pushes and pops), `push(); reset(); pop()` run from the initial stack
leaves the stack empty, so its top is not the transform that was on top
before the push (the identity). -/
theorem C2_counterexample_reset_in_M :
    run initialStack [Op.push, Op.reset, Op.pop] = some [] ∧
    ¬ (([] : List Mat3).head? = some Mat3.identity) :=
  ⟨rfl, by simp⟩

/-- C2 (amended): for every stack with top `T` and every sequence `M` of
mutations drawn from push, pop, translate and rotate — no `reset` — whose
pushes and pops are balanced, `push(); M; pop()` leaves the top of the
stack equal to `T`. -/
theorem C2_push_pop_symmetry (T : Mat3) (rest : List Mat3) (M : List Op)
    (hres : Op.reset ∉ M) (hbal : balanced M) :
    ∃ s2, run (T :: rest) (Op.push :: (M ++ [Op.pop])) = some s2 ∧
      s2.head? = some T := by
  obtain ⟨hpre, heq⟩ := hbal
  have hdepth : ∀ n,
      pops (M.take n) + 1 ≤ pushes (M.take n) + ([T] : List Mat3).length := by
    intro n
    have h := hpre n
    simp only [List.length_cons, List.length_nil]
    omega
  obtain ⟨u2, hrun, hlen⟩ := run_frame M [T] (T :: rest) hres hdepth
  have hu2 : u2.length = 1 := by
    simp only [List.length_cons, List.length_nil] at hlen
    omega
  obtain ⟨A, rfl⟩ := List.length_eq_one.mp hu2
  refine ⟨T :: rest, ?_, rfl⟩
  show run (T :: T :: rest) (M ++ [Op.pop]) = some (T :: rest)
  have hrun2 : run (T :: T :: rest) M = some (A :: T :: rest) := hrun
  rw [run_append, hrun2]
  rfl

/-- Witness for C2 at the concrete frame `T = translationHom 1 2` and the
balanced reset-free sequence `[push, translate 3 4, pop]`. -/
theorem C2_witness :
    Op.reset ∉ [Op.push, Op.translate 3 4, Op.pop] ∧
    balanced [Op.push, Op.translate 3 4, Op.pop] ∧
    (∃ s2, run (translationHom 1 2 :: [])
        (Op.push :: ([Op.push, Op.translate 3 4, Op.pop] ++ [Op.pop])) = some s2 ∧
      s2.head? = some (translationHom 1 2)) := by
  have hres : Op.reset ∉ [Op.push, Op.translate 3 4, Op.pop] := by simp
  have hbal : balanced [Op.push, Op.translate 3 4, Op.pop] := by
    refine ⟨?_, rfl⟩
    intro n
    match n with
    | 0 => decide
    | 1 => decide
    | 2 => decide
    | n + 3 =>
      rw [List.take_of_length_le (by simp)]
      decide
  exact ⟨hres, hbal, C2_push_pop_symmetry (translationHom 1 2) [] _ hres hbal⟩

end SdlHelpers
